import Mathlib

/-!
Shallow embedding of the multi-agent document summarizer's job orchestration
core, translated from the Python sources:
  app/models/storage.py, app/models/schemas.py, app/utils/helpers.py,
  app/agents/base_agent.py, app/services/orchestrator.py,
  app/services/background_tasks.py, app/main.py.

Modelling conventions:
  * Python dicts become insertion-ordered association lists; `d[k] = v`
    replaces in place or appends (`dinsert`), `d1.update(d2)` folds `dinsert`
    (`dupdate`), matching CPython dict semantics.
  * Python floats are modelled by exact rationals; `round(x, 2)` is modelled
    by round-half-to-even at two decimal places, which is Python's rounding
    rule on exactly representable values.
  * `datetime` timestamps become naturals (only their linear order is used).
  * Raised exceptions become `Except` errors carrying the message string.
  * Async scheduling: the orchestrator's `asyncio.gather` fan-out is embedded
    as a fold over the fan-out list, which realizes one completion order; the
    per-task store updates touch disjoint keys, so the finalized state is
    order-independent.
-/

namespace Summarizer

/-- Embeds `StatusEnum` from app/models/schemas.py. -/
inductive StatusEnum where
  | UPLOADED
  | PENDING
  | PROCESSING
  | COMPLETED
  | FAILED
  | PARTIAL
deriving DecidableEq, Repr

/-- Python values, as far as the orchestration core inspects them:
strings and (insertion-ordered) dicts. -/
inductive PyVal where
  | str (s : String)
  | dict (entries : List (String × PyVal))

/-- `d[k] = v` on a Python dict: replace the value in place if the key is
present, otherwise append the new pair at the end. -/
def dinsert : List (String × α) → String → α → List (String × α)
  | [], k, v => [(k, v)]
  | (k', v') :: rest, k, v =>
      if k' == k then (k, v) :: rest else (k', v') :: dinsert rest k v

/-- `d1.update(d2)` on Python dicts. -/
def dupdate (d upd : List (String × α)) : List (String × α) :=
  upd.foldl (fun acc kv => dinsert acc kv.1 kv.2) d

/-- `list(d.keys())` on a Python dict. -/
def dkeys (d : List (String × α)) : List String :=
  d.map Prod.fst

/-- `d.get(k)` on a Python dict. -/
def dlookup (d : List (String × α)) (k : String) : Option α :=
  match d with
  | [] => none
  | (k', v) :: rest => if k' == k then some v else dlookup rest k

/-- Embeds `DocumentAnalysisOrchestrator._determine_status`
(app/services/orchestrator.py lines 169-177). -/
def determine_status (agents_status : List (String × StatusEnum)) : StatusEnum :=
  let completed := agents_status.countP (fun kv => decide (kv.2 = StatusEnum.COMPLETED))
  let failed := agents_status.countP (fun kv => decide (kv.2 = StatusEnum.FAILED))
  if completed = agents_status.length then StatusEnum.COMPLETED
  else if failed = agents_status.length then StatusEnum.FAILED
  else StatusEnum.PARTIAL

/-- Round-half-to-even to the nearest integer, Python's `round` rule. -/
def roundHalfEven (x : ℚ) : ℤ :=
  if x - ⌊x⌋ < 1/2 then ⌊x⌋
  else if 1/2 < x - ⌊x⌋ then ⌊x⌋ + 1
  else if ⌊x⌋ % 2 = 0 then ⌊x⌋ else ⌊x⌋ + 1

/-- Python's `round(x, 2)` on exact values. -/
def pyRound2 (x : ℚ) : ℚ :=
  (roundHalfEven (x * 100) : ℚ) / 100

/-- Embeds `calculate_progress` (app/utils/helpers.py lines 29-44). -/
def calculate_progress (agents_status : List (String × StatusEnum)) : ℚ :=
  if agents_status.isEmpty then 0
  else
    let completed_count :=
      agents_status.countP (fun kv => decide (kv.2 = StatusEnum.COMPLETED))
    let total_count := agents_status.length
    pyRound2 ((completed_count : ℚ) / (total_count : ℚ) * 100)

theorem determine_status_cases (m : List (String × StatusEnum)) :
    determine_status m =
      if ∀ kv ∈ m, kv.2 = StatusEnum.COMPLETED then StatusEnum.COMPLETED
      else if ∀ kv ∈ m, kv.2 = StatusEnum.FAILED then StatusEnum.FAILED
      else StatusEnum.PARTIAL := by
  have hC : (m.countP (fun kv => decide (kv.2 = StatusEnum.COMPLETED)) = m.length)
      ↔ ∀ kv ∈ m, kv.2 = StatusEnum.COMPLETED := by
    rw [List.countP_eq_length]; simp
  have hF : (m.countP (fun kv => decide (kv.2 = StatusEnum.FAILED)) = m.length)
      ↔ ∀ kv ∈ m, kv.2 = StatusEnum.FAILED := by
    rw [List.countP_eq_length]; simp
  unfold determine_status
  simp only [hC, hF]

/-- C1: for every mapping from task names to terminal task statuses, the
orchestrator's final job status is `completed` if every task's status is
`completed`, `failed` if every task's status is `failed`, and `partial`
otherwise; on nonempty maps the three cases characterize the result
exactly. -/
theorem determine_status_correct (m : List (String × StatusEnum))
    (_hterm : ∀ kv ∈ m, kv.2 = StatusEnum.COMPLETED ∨ kv.2 = StatusEnum.FAILED) :
    ((∀ kv ∈ m, kv.2 = StatusEnum.COMPLETED) → determine_status m = StatusEnum.COMPLETED) ∧
    (¬(∀ kv ∈ m, kv.2 = StatusEnum.COMPLETED) → (∀ kv ∈ m, kv.2 = StatusEnum.FAILED) →
      determine_status m = StatusEnum.FAILED) ∧
    (¬(∀ kv ∈ m, kv.2 = StatusEnum.COMPLETED) → ¬(∀ kv ∈ m, kv.2 = StatusEnum.FAILED) →
      determine_status m = StatusEnum.PARTIAL) ∧
    (m ≠ [] →
      ((determine_status m = StatusEnum.COMPLETED ↔ ∀ kv ∈ m, kv.2 = StatusEnum.COMPLETED) ∧
       (determine_status m = StatusEnum.FAILED ↔ ∀ kv ∈ m, kv.2 = StatusEnum.FAILED) ∧
       (determine_status m = StatusEnum.PARTIAL ↔
         (¬(∀ kv ∈ m, kv.2 = StatusEnum.COMPLETED) ∧
          ¬(∀ kv ∈ m, kv.2 = StatusEnum.FAILED))))) := by
  rw [determine_status_cases]
  refine ⟨fun h1 => by rw [if_pos h1], fun h1 h2 => by rw [if_neg h1, if_pos h2],
    fun h1 h2 => by rw [if_neg h1, if_neg h2], fun hne => ?_⟩
  obtain ⟨kv0, hkv0⟩ := List.exists_mem_of_ne_nil m hne
  by_cases h1 : ∀ kv ∈ m, kv.2 = StatusEnum.COMPLETED
  · have h2 : ¬ ∀ kv ∈ m, kv.2 = StatusEnum.FAILED := by
      intro h2
      have e1 := h1 kv0 hkv0
      have e2 := h2 kv0 hkv0
      rw [e1] at e2
      exact StatusEnum.noConfusion e2
    rw [if_pos h1]
    exact ⟨iff_of_true rfl h1, iff_of_false (by decide) h2,
      iff_of_false (by decide) (fun hc => hc.1 h1)⟩
  · by_cases h2 : ∀ kv ∈ m, kv.2 = StatusEnum.FAILED
    · rw [if_neg h1, if_pos h2]
      exact ⟨iff_of_false (by decide) h1, iff_of_true rfl h2,
        iff_of_false (by decide) (fun hc => hc.2 h2)⟩
    · rw [if_neg h1, if_neg h2]
      exact ⟨iff_of_false (by decide) h1, iff_of_false (by decide) h2,
        iff_of_true rfl ⟨h1, h2⟩⟩

/-- Witness for C1: a concrete mixed terminal map yields `partial`. -/
theorem determine_status_correct_witness :
    determine_status [("summarizer", StatusEnum.COMPLETED), ("entity_extractor", StatusEnum.FAILED)]
      = StatusEnum.PARTIAL := by
  have h := determine_status_correct
    [("summarizer", StatusEnum.COMPLETED), ("entity_extractor", StatusEnum.FAILED)] (by decide)
  exact h.2.2.1 (by decide) (by decide)

theorem roundHalfEven_nonneg (x : ℚ) (hx : 0 ≤ x) : 0 ≤ roundHalfEven x := by
  have h0 : (0:ℤ) ≤ ⌊x⌋ := Int.floor_nonneg.mpr hx
  unfold roundHalfEven
  split_ifs <;> omega

theorem roundHalfEven_le_ceil (x : ℚ) : roundHalfEven x ≤ ⌈x⌉ := by
  have hfc : ⌊x⌋ ≤ ⌈x⌉ := Int.floor_le_ceil x
  unfold roundHalfEven
  split_ifs with h1 h2 h3
  · exact hfc
  · have hx : (⌊x⌋ : ℚ) < x := by linarith
    have := Int.lt_ceil.mpr hx
    omega
  · exact hfc
  · have heq : x - ⌊x⌋ = 1/2 := le_antisymm (not_lt.mp h2) (not_lt.mp h1)
    have hx : (⌊x⌋ : ℚ) < x := by linarith
    have := Int.lt_ceil.mpr hx
    omega

theorem pyRound2_nonneg (x : ℚ) (hx : 0 ≤ x) : 0 ≤ pyRound2 x := by
  unfold pyRound2
  have h : (0:ℤ) ≤ roundHalfEven (x * 100) := roundHalfEven_nonneg _ (by positivity)
  have h' : (0:ℚ) ≤ (roundHalfEven (x * 100) : ℚ) := by exact_mod_cast h
  positivity

theorem pyRound2_le_100 (x : ℚ) (hx : x ≤ 100) : pyRound2 x ≤ 100 := by
  unfold pyRound2
  have h1 : roundHalfEven (x * 100) ≤ ⌈x * 100⌉ := roundHalfEven_le_ceil _
  have h2 : ⌈x * 100⌉ ≤ 10000 := Int.ceil_le.mpr (by push_cast; linarith)
  have h3 : (roundHalfEven (x * 100) : ℚ) ≤ 10000 := by exact_mod_cast le_trans h1 h2
  linarith

/-- C2: the progress function returns `round(100 * completed / total, 2)`, a
value in `[0,100]`, and `0` on the empty map. -/
theorem calculate_progress_correct (m : List (String × StatusEnum)) :
    (m = [] → calculate_progress m = 0) ∧
    (m ≠ [] → calculate_progress m =
      pyRound2 (100 *
        ((m.countP (fun kv => decide (kv.2 = StatusEnum.COMPLETED)) : ℚ) / (m.length : ℚ)))) ∧
    0 ≤ calculate_progress m ∧ calculate_progress m ≤ 100 := by
  by_cases hm : m = []
  · subst hm
    exact ⟨fun _ => rfl, fun h => absurd rfl h, by norm_num [calculate_progress],
      by norm_num [calculate_progress]⟩
  · have hne : m.isEmpty = false := by
      cases m with
      | nil => exact absurd rfl hm
      | cons a l => rfl
    have hcle : m.countP (fun kv => decide (kv.2 = StatusEnum.COMPLETED)) ≤ m.length :=
      List.countP_le_length _
    have hlen : 0 < m.length := List.length_pos.mpr hm
    have hle : ((m.countP (fun kv => decide (kv.2 = StatusEnum.COMPLETED)) : ℚ)) ≤ (m.length : ℚ) := by
      exact_mod_cast hcle
    have hpos : (0:ℚ) < (m.length : ℚ) := by exact_mod_cast hlen
    have hval : calculate_progress m =
        pyRound2 ((m.countP (fun kv => decide (kv.2 = StatusEnum.COMPLETED)) : ℚ)
          / (m.length : ℚ) * 100) := by
      unfold calculate_progress
      rw [hne]
      rfl
    have hq0 : (0:ℚ) ≤ (m.countP (fun kv => decide (kv.2 = StatusEnum.COMPLETED)) : ℚ)
        / (m.length : ℚ) * 100 := by positivity
    have hq1 : (m.countP (fun kv => decide (kv.2 = StatusEnum.COMPLETED)) : ℚ)
        / (m.length : ℚ) * 100 ≤ 100 := by
      have hdiv : (m.countP (fun kv => decide (kv.2 = StatusEnum.COMPLETED)) : ℚ)
          / (m.length : ℚ) ≤ 1 := (div_le_one hpos).mpr hle
      nlinarith
    refine ⟨fun h => absurd h hm, fun _ => ?_, ?_, ?_⟩
    · rw [hval]
      congr 1
      ring
    · rw [hval]
      exact pyRound2_nonneg _ hq0
    · rw [hval]
      exact pyRound2_le_100 _ hq1

/-- Witness for C2: one of two tasks completed gives progress `50`. -/
theorem calculate_progress_correct_witness :
    calculate_progress [("summarizer", StatusEnum.COMPLETED), ("entity_extractor", StatusEnum.PENDING)]
      = 50 := by
  have h := (calculate_progress_correct
    [("summarizer", StatusEnum.COMPLETED), ("entity_extractor", StatusEnum.PENDING)]).2.1
    (by decide)
  rw [h]
  have hc : List.countP (fun kv => decide (kv.2 = StatusEnum.COMPLETED))
      [("summarizer", StatusEnum.COMPLETED), ("entity_extractor", StatusEnum.PENDING)] = 1 := by
    decide
  rw [hc]
  norm_num [pyRound2, roundHalfEven]

/-- The possible behaviours of a wrapped agent's `process` coroutine, as
observed by `BaseDocumentAgent.execute`: return a value, raise an
exception, or exceed the wall-clock ceiling enforced by `timeout_guard`. -/
inductive ProcessBehavior where
  | returns (payload : PyVal)
  | raises (msg : String)
  | timesOut

/-- Exceptions that flow inside `BaseDocumentAgent.execute`'s `try` block. -/
inductive PyExc where
  | timeoutError (msg : String)
  | valueError (msg : String)
  | exception (msg : String)

def excMessage : PyExc → String
  | .timeoutError m => m
  | .valueError m => m
  | .exception m => m

def isDict : PyVal → Bool
  | .dict _ => true
  | _ => false

structure AgentCtx where
  agent_name : String
  timeout_seconds : Nat

/-- Embeds `timeout_guard` composed with `_process_with_timeout`
(app/agents/base_agent.py lines 14-26 and 55-57): a timed-out `process`
surfaces as a `TimeoutError` with the decorator's message. -/
def processWithTimeout (ctx : AgentCtx) (b : ProcessBehavior) : Except PyExc PyVal :=
  match b with
  | .returns p => .ok p
  | .raises m => .error (.exception m)
  | .timesOut => .error (.timeoutError
      ("Operation exceeded timeout of " ++ toString ctx.timeout_seconds ++ " seconds"))

/-- The success record built by `BaseDocumentAgent.execute` (base_agent.py
lines 65-70); `ts` stands for the wall-clock timestamp string. -/
def successResponse (ctx : AgentCtx) (data : PyVal) (ts : String) : PyVal :=
  .dict [("status", .str "success"), ("agent", .str ctx.agent_name),
         ("data", data), ("timestamp", .str ts)]

/-- Embeds `BaseDocumentAgent._error_response` (base_agent.py lines 77-84). -/
def error_response (ctx : AgentCtx) (error_type msg ts : String) : PyVal :=
  .dict [("status", .str "error"), ("agent", .str ctx.agent_name),
         ("error_type", .str error_type), ("message", .str msg), ("timestamp", .str ts)]

/-- The `try` block of `BaseDocumentAgent.execute` (base_agent.py lines
61-70): a non-dict payload raises `ValueError`, to be caught below. -/
def executeTryBody (ctx : AgentCtx) (ts : String) (b : ProcessBehavior) : Except PyExc PyVal :=
  match processWithTimeout ctx b with
  | .error e => .error e
  | .ok result =>
      if isDict result then .ok (successResponse ctx result ts)
      else .error (.valueError "Agent process() must return a dictionary payload.")

/-- Embeds `BaseDocumentAgent.execute` (base_agent.py lines 59-75): the
`except TimeoutError` and `except Exception` clauses turn every failure
into the structured error record. -/
def execute (ctx : AgentCtx) (ts : String) (b : ProcessBehavior) : Except PyExc PyVal :=
  match executeTryBody ctx ts b with
  | .ok r => .ok r
  | .error (.timeoutError m) => .ok (error_response ctx "timeout" m ts)
  | .error e => .ok (error_response ctx "exception" (excMessage e) ts)

/-- C3: for every behaviour of the wrapped `process` function (raising,
timing out, or returning a non-dict payload), `execute()` never raises: it
returns either a success record or an error record whose `error_type` is
`timeout` or `exception`. -/
theorem execute_never_raises (ctx : AgentCtx) (ts : String) (b : ProcessBehavior) :
    (∃ data, execute ctx ts b = .ok (successResponse ctx data ts)) ∨
    (∃ et msg, (et = "timeout" ∨ et = "exception") ∧
      execute ctx ts b = .ok (error_response ctx et msg ts)) := by
  cases b with
  | returns p =>
    cases p with
    | dict es => exact .inl ⟨.dict es, rfl⟩
    | str s => exact .inr ⟨"exception", "Agent process() must return a dictionary payload.",
        .inr rfl, rfl⟩
  | raises m => exact .inr ⟨"exception", m, .inr rfl, rfl⟩
  | timesOut => exact .inr ⟨"timeout",
      "Operation exceeded timeout of " ++ toString ctx.timeout_seconds ++ " seconds",
      .inl rfl, rfl⟩

/-- Outcome of one attempt of the operation wrapped by `retry_with_backoff`:
a result, or a raised exception together with whether it is an instance of
`retry_exceptions` (with the default `retry_exceptions=(Exception,)` every
exception is retryable). -/
inductive AttemptOutcome (α : Type) where
  | ok (v : α)
  | fail (msg : String) (retryable : Bool)

/-- The `while True` loop of `retry_with_backoff` (app/utils/helpers.py
lines 89-113).  `attempt` is the attempt number performed by this call
(numbering starts at 1) and `rem` is the number of further attempts still
allowed after it (`max_attempts - attempt`).  Returns the result (or the
re-raised last failure) together with the number of the attempt on which
the loop stopped; the operation is invoked exactly once per attempt
`1..stop`. -/
def retryLoop (f : Nat → AttemptOutcome α) : Nat → Nat → Except String α × Nat
  | attempt, rem =>
    match f attempt with
    | .ok v => (.ok v, attempt)
    | .fail m r =>
      if r then
        match rem with
        | 0 => (.error m, attempt)
        | rem' + 1 => retryLoop f (attempt + 1) rem'
      else (.error m, attempt)

/-- Embeds the attempt control flow of `retry_with_backoff`
(helpers.py lines 56-113). -/
def retry_with_backoff (f : Nat → AttemptOutcome α) (max_attempts : Nat) :
    Except String α × Nat :=
  retryLoop f 1 (max_attempts - 1)

theorem retryLoop_all_fail (f : Nat → AttemptOutcome α) (msgs : Nat → String)
    (hf : ∀ k, f k = .fail (msgs k) true) :
    ∀ (rem attempt : Nat),
      retryLoop f attempt rem = (.error (msgs (attempt + rem)), attempt + rem) := by
  intro rem
  induction rem with
  | zero =>
    intro a
    simp [retryLoop, hf a]
  | succ n ih =>
    intro a
    have h := ih (a + 1)
    have hrw : a + 1 + n = a + (n + 1) := by omega
    rw [hrw] at h
    simp [retryLoop, hf a, h]

theorem retryLoop_success (f : Nat → AttemptOutcome α) (v : α) (k : Nat)
    (hk : f k = .ok v)
    (hbefore : ∀ j, 1 ≤ j → j < k → ∃ m, f j = .fail m true) :
    ∀ (rem attempt : Nat), 1 ≤ attempt → attempt ≤ k → k ≤ attempt + rem →
      retryLoop f attempt rem = (.ok v, k) := by
  intro rem
  induction rem with
  | zero =>
    intro a _ h1 h2
    have ha : a = k := by omega
    subst ha
    simp [retryLoop, hk]
  | succ n ih =>
    intro a h0 h1 h2
    by_cases hak : a = k
    · subst hak
      simp [retryLoop, hk]
    · obtain ⟨m, hm⟩ := hbefore a h0 (by omega)
      have h := ih (a + 1) (by omega) (by omega) (by omega)
      simp [retryLoop, hm, h]

/-- C4: with `max_attempts ≥ 1`, an operation whose every attempt raises a
retryable exception is invoked exactly `max_attempts` times, and the
failure of the last attempt is then re-raised; an operation that succeeds
on attempt `k ≤ max_attempts` (after retryable failures) returns its
result immediately, after exactly `k` invocations. -/
theorem retry_with_backoff_correct (f : Nat → AttemptOutcome α) (max_attempts : Nat)
    (hmax : 1 ≤ max_attempts) :
    (∀ (msgs : Nat → String), (∀ k, f k = .fail (msgs k) true) →
      retry_with_backoff f max_attempts = (.error (msgs max_attempts), max_attempts)) ∧
    (∀ (v : α) (k : Nat), 1 ≤ k → k ≤ max_attempts → f k = .ok v →
      (∀ j, 1 ≤ j → j < k → ∃ m, f j = .fail m true) →
      retry_with_backoff f max_attempts = (.ok v, k)) := by
  constructor
  · intro msgs hf
    unfold retry_with_backoff
    have h := retryLoop_all_fail f msgs hf (max_attempts - 1) 1
    have hrw : 1 + (max_attempts - 1) = max_attempts := by omega
    rw [hrw] at h
    exact h
  · intro v k h1 h2 hk hb
    unfold retry_with_backoff
    exact retryLoop_success f v k hk hb (max_attempts - 1) 1 le_rfl h1 (by omega)

/-- Witness for C4: an operation failing on attempt 1 and succeeding on
attempt 2 returns its result after exactly 2 invocations out of 3 allowed. -/
theorem retry_with_backoff_correct_witness :
    retry_with_backoff
      (fun k => if k = 2 then AttemptOutcome.ok (7 : Nat) else .fail "boom" true) 3
      = (.ok 7, 2) := by
  have h := (retry_with_backoff_correct
      (fun k => if k = 2 then AttemptOutcome.ok (7 : Nat) else .fail "boom" true) 3
      (by decide)).2 7 2 (by decide) (by decide) (by simp)
      (fun j hj1 hj2 => ⟨"boom", by
        have hj : j = 1 := by omega
        subst hj
        simp⟩)
  exact h

/-- Embeds the base backoff delay (helpers.py line 110):
`min(initial_delay * multiplier ** (attempt - 1), max_delay)`. -/
def backoffDelay (initial_delay max_delay multiplier : ℚ) (attempt : Nat) : ℚ :=
  min (initial_delay * multiplier ^ (attempt - 1)) max_delay

/-- Embeds helpers.py lines 110-112: the value passed to `asyncio.sleep`
after failed attempt `attempt`, where `r` is the draw of `random.random()`
(uniform on `[0,1)`). -/
def backoffSleep (initial_delay max_delay multiplier jitter : ℚ) (attempt : Nat) (r : ℚ) : ℚ :=
  let delay := backoffDelay initial_delay max_delay multiplier attempt
  let jitter_amount := delay * jitter * (r * 2 - 1)
  max 0 (delay + jitter_amount)

/-- C5: the sleep before attempt `k+1` is `max(0, d + e)` where
`d = min(initial_delay * multiplier^(k-1), max_delay)` and the jitter
offset `e` lies in `[-jitter*d, +jitter*d]`; the unperturbed delays are
non-decreasing in `k` and capped at `max_delay` whenever `multiplier ≥ 1`. -/
theorem backoff_sleep_correct (initial_delay max_delay multiplier jitter : ℚ)
    (attempt : Nat) (r : ℚ)
    (hinit : 0 ≤ initial_delay) (hmaxd : 0 ≤ max_delay) (hmul : 1 ≤ multiplier)
    (hjit : 0 ≤ jitter) (hr0 : 0 ≤ r) (hr1 : r < 1) (hatt : 1 ≤ attempt) :
    (backoffSleep initial_delay max_delay multiplier jitter attempt r =
      max 0 (backoffDelay initial_delay max_delay multiplier attempt +
        backoffDelay initial_delay max_delay multiplier attempt * jitter * (r * 2 - 1))) ∧
    (-(jitter * backoffDelay initial_delay max_delay multiplier attempt) ≤
      backoffDelay initial_delay max_delay multiplier attempt * jitter * (r * 2 - 1)) ∧
    (backoffDelay initial_delay max_delay multiplier attempt * jitter * (r * 2 - 1) ≤
      jitter * backoffDelay initial_delay max_delay multiplier attempt) ∧
    (backoffDelay initial_delay max_delay multiplier attempt ≤
      backoffDelay initial_delay max_delay multiplier (attempt + 1)) ∧
    (backoffDelay initial_delay max_delay multiplier attempt ≤ max_delay) := by
  have hmul0 : (0:ℚ) ≤ multiplier := le_trans zero_le_one hmul
  have hpow : (0:ℚ) ≤ initial_delay * multiplier ^ (attempt - 1) := by positivity
  have hd0 : 0 ≤ backoffDelay initial_delay max_delay multiplier attempt :=
    le_min hpow hmaxd
  have hdj : 0 ≤ backoffDelay initial_delay max_delay multiplier attempt * jitter :=
    mul_nonneg hd0 hjit
  refine ⟨rfl, ?_, ?_, ?_, min_le_right _ _⟩
  · nlinarith [mul_nonneg hdj (by linarith : (0:ℚ) ≤ (r * 2 - 1) + 1)]
  · nlinarith [mul_nonneg hdj (by linarith : (0:ℚ) ≤ 1 - (r * 2 - 1))]
  · unfold backoffDelay
    have hsub : attempt + 1 - 1 = attempt := by omega
    rw [hsub]
    refine min_le_min ?_ le_rfl
    have hple : multiplier ^ (attempt - 1) ≤ multiplier ^ attempt :=
      pow_le_pow_right₀ hmul (by omega)
    exact mul_le_mul_of_nonneg_left hple hinit

/-- Witness for C5: with `initial_delay=1/2`, `max_delay=10`,
`multiplier=2`, `jitter=1/10`, attempt 1 and `r=1/2`, the sleep follows the
`max(0, d + e)` form. -/
theorem backoff_sleep_correct_witness :
    backoffSleep (1/2) 10 2 (1/10) 1 (1/2) =
      max 0 (backoffDelay (1/2) 10 2 1 +
        backoffDelay (1/2) 10 2 1 * (1/10) * ((1/2) * 2 - 1)) :=
  (backoff_sleep_correct (1/2) 10 2 (1/10) 1 (1/2) (by norm_num) (by norm_num)
    (by norm_num) (by norm_num) (by norm_num) (by norm_num) (by norm_num)).1

/-- Embeds `Metadata` (app/models/schemas.py lines 243-250); wall-clock
durations and timestamps carry no orchestration logic and are omitted. -/
structure Metadata where
  parallel_execution : Bool
  agents_completed : Nat
  agents_failed : Nat
  warning : Option String
  failed_agents : List String

/-- Embeds `JobStorage` (app/models/storage.py lines 16-26). -/
structure JobStorage where
  job_id : String
  document_id : String
  status : StatusEnum
  agents_status : List (String × StatusEnum)
  results : List (String × PyVal)
  start_time : Nat
  end_time : Option Nat
  error_messages : List (String × String)
  metadata : Option Metadata

/-- Embeds the `StorageManager` state (storage.py lines 28-32).  Of a
stored document only its id matters to the orchestration core, and `jobs`
keeps Python-dict insertion order. -/
structure StorageState where
  documents : List String
  jobs : List JobStorage

/-- The default `agents_status` dict written by `save_job` (storage.py
lines 74-79); note that it has three entries. -/
def defaultAgentsStatus : List (String × StatusEnum) :=
  [("summarizer", StatusEnum.PENDING), ("entity_extractor", StatusEnum.PENDING),
   ("sentiment_analyzer", StatusEnum.PENDING)]

/-- Embeds `StorageManager.save_job` (storage.py lines 61-84); the fresh
job id and the clock reading are passed explicitly in place of
`_generate_job_id()` and `datetime.now()`. -/
def save_job (s : StorageState) (document_id job_id : String) (status : StatusEnum)
    (agents_status : Option (List (String × StatusEnum))) (now : Nat) :
    StorageState × String :=
  let chosen := match agents_status with
    | some a => a
    | none => defaultAgentsStatus
  let job : JobStorage :=
    { job_id := job_id, document_id := document_id, status := status,
      agents_status := chosen, results := [], start_time := now,
      end_time := none, error_messages := [], metadata := none }
  ({ s with jobs := s.jobs ++ [job] }, job_id)

/-- The field updates of `update_job_status` applied to the found job
(storage.py lines 93-103); `if x:` on the optional dict arguments is
Python truthiness, so both `None` and `{}` skip the merge. -/
def applyJobUpdate (job : JobStorage) (status : StatusEnum)
    (agents_status : Option (List (String × StatusEnum)))
    (results : Option (List (String × PyVal)))
    (end_time : Option Nat)
    (error_messages : Option (List (String × String)))
    (metadata : Option Metadata) : JobStorage :=
  let job := { job with status := status }
  let job := match agents_status with
    | some l => if l.isEmpty then job else { job with agents_status := dupdate job.agents_status l }
    | none => job
  let job := match results with
    | some l => if l.isEmpty then job else { job with results := dupdate job.results l }
    | none => job
  let job := match end_time with
    | some t => { job with end_time := some t }
    | none => job
  let job := match error_messages with
    | some l => if l.isEmpty then job
        else { job with error_messages := dupdate job.error_messages l }
    | none => job
  match metadata with
  | some md => { job with metadata := some md }
  | none => job

/-- Embeds `StorageManager.update_job_status` (storage.py lines 86-104);
job ids are unique keys of the `jobs` dict, so the in-place mutation is a
map over the entry with the matching id. -/
def update_job_status (s : StorageState) (job_id : String) (status : StatusEnum)
    (agents_status : Option (List (String × StatusEnum)))
    (results : Option (List (String × PyVal)))
    (end_time : Option Nat)
    (error_messages : Option (List (String × String)))
    (metadata : Option Metadata) : StorageState × Bool :=
  if s.jobs.any (fun j => j.job_id == job_id) then
    ({ s with jobs := s.jobs.map (fun j =>
        if j.job_id == job_id then
          applyJobUpdate j status agents_status results end_time error_messages metadata
        else j) }, true)
  else (s, false)

/-- Embeds `StorageManager.get_job` (storage.py lines 106-108). -/
def get_job (s : StorageState) (job_id : String) : Option JobStorage :=
  s.jobs.find? (fun j => j.job_id == job_id)

/-- One selection step for the most recent job: keeps the earlier job on
equal timestamps, which is what Python's stable `sort(key=start_time,
reverse=True)` followed by `matches[0]` produces. -/
def latestPick (acc : Option JobStorage) (job : JobStorage) : Option JobStorage :=
  match acc with
  | none => some job
  | some best => if best.start_time < job.start_time then some job else some best

/-- Embeds `StorageManager.get_latest_job_for_document` (storage.py lines
110-118). -/
def get_latest_job_for_document (s : StorageState) (document_id : String) :
    Option JobStorage :=
  (s.jobs.filter (fun j => j.document_id == document_id)).foldl latestPick none

/-- C10: for a `job_id` not present in the store, `update_job_status`
returns `False` and leaves the store entirely unchanged; for a present
`job_id` it returns `True`. -/
theorem update_job_status_absent_present (s : StorageState) (job_id : String)
    (status : StatusEnum) (agents_status : Option (List (String × StatusEnum)))
    (results : Option (List (String × PyVal))) (end_time : Option Nat)
    (error_messages : Option (List (String × String))) (metadata : Option Metadata) :
    ((∀ j ∈ s.jobs, j.job_id ≠ job_id) →
      update_job_status s job_id status agents_status results end_time error_messages metadata
        = (s, false)) ∧
    ((∃ j ∈ s.jobs, j.job_id = job_id) →
      (update_job_status s job_id status agents_status results end_time
        error_messages metadata).2 = true) := by
  have hiff : (s.jobs.any (fun j => j.job_id == job_id) = true)
      ↔ ∃ j ∈ s.jobs, j.job_id = job_id := by
    simp [List.any_eq_true]
  constructor
  · intro h
    unfold update_job_status
    rw [if_neg]
    intro hc
    obtain ⟨j, hj, he⟩ := hiff.mp hc
    exact h j hj he
  · intro h
    unfold update_job_status
    rw [if_pos (hiff.mpr h)]

/-- Witness for C10: on the empty store the update is refused and the
store is returned unchanged; with the job present it returns `True`. -/
theorem update_job_status_absent_present_witness :
    update_job_status ⟨[], []⟩ "job_x" StatusEnum.FAILED none none none none none
      = (⟨[], []⟩, false) ∧
    (update_job_status
      ⟨[], [⟨"job_x", "doc_1", StatusEnum.PENDING, defaultAgentsStatus, [], 0, none, [], none⟩]⟩
      "job_x" StatusEnum.FAILED none none none none none).2 = true := by
  constructor
  · exact (update_job_status_absent_present ⟨[], []⟩ "job_x" StatusEnum.FAILED
      none none none none none).1 (by simp)
  · exact (update_job_status_absent_present
      ⟨[], [⟨"job_x", "doc_1", StatusEnum.PENDING, defaultAgentsStatus, [], 0, none, [], none⟩]⟩
      "job_x" StatusEnum.FAILED none none none none none).2
      ⟨⟨"job_x", "doc_1", StatusEnum.PENDING, defaultAgentsStatus, [], 0, none, [], none⟩,
        by simp, rfl⟩

/-- Result of the admission endpoint `analyze_document` (app/main.py lines
414-488): the job id returned to the caller, whether background
orchestration was (re-)scheduled, and whether a new job row was created. -/
structure AdmissionOutcome where
  job_id : String
  scheduled : Bool
  created : Bool

/-- Embeds the admission logic of `analyze_document` (main.py lines
414-488): look up the most recent job for the document and follow the
decision table.  `none` is the 404 branch for a missing document; the
fresh job id and clock reading stand for `generate_job_id()` and
`datetime.now()` inside `save_job`. -/
def analyze_document_admission (s : StorageState) (document_id fresh_job_id : String)
    (now : Nat) : Option (AdmissionOutcome × StorageState) :=
  if document_id ∈ s.documents then
    match get_latest_job_for_document s document_id with
    | some j =>
      if j.status = StatusEnum.PROCESSING ∨ j.status = StatusEnum.COMPLETED
          ∨ j.status = StatusEnum.PARTIAL then
        some ({ job_id := j.job_id, scheduled := false, created := false }, s)
      else if j.status = StatusEnum.PENDING then
        some ({ job_id := j.job_id, scheduled := true, created := false }, s)
      else
        some ({ job_id := fresh_job_id, scheduled := true, created := true },
          (save_job s document_id fresh_job_id StatusEnum.PENDING none now).1)
    | none =>
        some ({ job_id := fresh_job_id, scheduled := true, created := true },
          (save_job s document_id fresh_job_id StatusEnum.PENDING none now).1)
  else none

theorem foldl_latestPick_mem (l : List JobStorage) :
    ∀ (acc : Option JobStorage) (b : JobStorage),
      l.foldl latestPick acc = some b → acc = some b ∨ b ∈ l := by
  induction l with
  | nil =>
    intro acc b h
    exact .inl h
  | cons j rest ih =>
    intro acc b h
    rcases ih (latestPick acc j) b h with h1 | h2
    · rcases acc with _ | best
      · have hjb : j = b := by simpa [latestPick] using h1
        exact .inr (hjb ▸ List.mem_cons_self j rest)
      · by_cases hb : best.start_time < j.start_time
        · have hjb : j = b := by simpa [latestPick, hb] using h1
          exact .inr (hjb ▸ List.mem_cons_self j rest)
        · have hbb : best = b := by simpa [latestPick, hb] using h1
          exact .inl (by rw [hbb])
    · exact .inr (List.mem_cons_of_mem _ h2)

/-- Appending a matching job whose `start_time` strictly exceeds every
stored job's makes it the most recent job for the document. -/
theorem get_latest_append_fresh (s : StorageState) (doc : String) (j0 : JobStorage)
    (hdoc : j0.document_id = doc)
    (hfresh : ∀ j ∈ s.jobs, j.start_time < j0.start_time) :
    get_latest_job_for_document { s with jobs := s.jobs ++ [j0] } doc = some j0 := by
  unfold get_latest_job_for_document
  have hf1 : List.filter (fun j => j.document_id == doc) [j0] = [j0] := by
    simp [hdoc]
  show ((s.jobs ++ [j0]).filter (fun j => j.document_id == doc)).foldl latestPick none
      = some j0
  rw [List.filter_append, hf1, List.foldl_append]
  cases hacc : (s.jobs.filter (fun j => j.document_id == doc)).foldl latestPick none with
  | none => simp [latestPick]
  | some best =>
    have hmem : best ∈ s.jobs.filter (fun j => j.document_id == doc) := by
      rcases foldl_latestPick_mem _ none best hacc with h | h
      · exact absurd h (by simp)
      · exact h
    have hlt : best.start_time < j0.start_time :=
      hfresh best (List.mem_of_mem_filter hmem)
    simp [latestPick, hlt]

/-- After admission created a fresh `pending` job with a strictly newer
`start_time`, a subsequent admission call reuses that job's id. -/
theorem admission_after_create (s : StorageState) (document_id fresh_job_id : String)
    (now : Nat) (hdoc : document_id ∈ s.documents)
    (hfr : ∀ j ∈ s.jobs, j.start_time < now) (fresh2 : String) (now2 : Nat) :
    analyze_document_admission
        ((save_job s document_id fresh_job_id StatusEnum.PENDING none now).1)
        document_id fresh2 now2 =
      some ({ job_id := fresh_job_id, scheduled := true, created := false },
        (save_job s document_id fresh_job_id StatusEnum.PENDING none now).1) := by
  have hlat := get_latest_append_fresh s document_id
    ⟨fresh_job_id, document_id, StatusEnum.PENDING, defaultAgentsStatus, [], now,
      none, [], none⟩ rfl (fun j hj => hfr j hj)
  simp [analyze_document_admission, save_job, hdoc, hlat]

/-- C6: admission follows the decision table on the most recent job (by
descending `start_time`) for the document: no job or a `failed` job leads
to a fresh job, `pending` reuses the job id and (re-)schedules, and
`processing`/`completed`/`partial` return the existing job unchanged with
no new work; consequently two successive admission calls for the same
document return the identical job id. -/
theorem admission_decision_table (s : StorageState) (document_id fresh_job_id : String)
    (now : Nat) (hdoc : document_id ∈ s.documents) :
    (get_latest_job_for_document s document_id = none →
      analyze_document_admission s document_id fresh_job_id now =
        some ({ job_id := fresh_job_id, scheduled := true, created := true },
          (save_job s document_id fresh_job_id StatusEnum.PENDING none now).1)) ∧
    (∀ j, get_latest_job_for_document s document_id = some j →
      j.status = StatusEnum.FAILED →
      analyze_document_admission s document_id fresh_job_id now =
        some ({ job_id := fresh_job_id, scheduled := true, created := true },
          (save_job s document_id fresh_job_id StatusEnum.PENDING none now).1)) ∧
    (∀ j, get_latest_job_for_document s document_id = some j →
      j.status = StatusEnum.PENDING →
      analyze_document_admission s document_id fresh_job_id now =
        some ({ job_id := j.job_id, scheduled := true, created := false }, s)) ∧
    (∀ j, get_latest_job_for_document s document_id = some j →
      (j.status = StatusEnum.PROCESSING ∨ j.status = StatusEnum.COMPLETED ∨
       j.status = StatusEnum.PARTIAL) →
      analyze_document_admission s document_id fresh_job_id now =
        some ({ job_id := j.job_id, scheduled := false, created := false }, s)) ∧
    ((∀ j ∈ s.jobs, j.start_time < now) →
      ∀ r1 s1, analyze_document_admission s document_id fresh_job_id now = some (r1, s1) →
      ∀ fresh2 now2 r2 s2,
        analyze_document_admission s1 document_id fresh2 now2 = some (r2, s2) →
        r2.job_id = r1.job_id) := by
  have hsome : ∀ (fid : String) (t : Nat) (j : JobStorage),
      get_latest_job_for_document s document_id = some j →
      analyze_document_admission s document_id fid t =
        if j.status = StatusEnum.PROCESSING ∨ j.status = StatusEnum.COMPLETED
            ∨ j.status = StatusEnum.PARTIAL then
          some ({ job_id := j.job_id, scheduled := false, created := false }, s)
        else if j.status = StatusEnum.PENDING then
          some ({ job_id := j.job_id, scheduled := true, created := false }, s)
        else
          some ({ job_id := fid, scheduled := true, created := true },
            (save_job s document_id fid StatusEnum.PENDING none t).1) := by
    intro fid t j hl
    simp [analyze_document_admission, hdoc, hl]
  refine ⟨?_, ?_, ?_, ?_, ?_⟩
  · intro h
    simp [analyze_document_admission, hdoc, h]
  · intro j hj hst
    rw [hsome fresh_job_id now j hj, if_neg (by simp [hst]), if_neg (by simp [hst])]
  · intro j hj hst
    rw [hsome fresh_job_id now j hj, if_neg (by simp [hst]), if_pos hst]
  · intro j hj hst
    rw [hsome fresh_job_id now j hj, if_pos hst]
  · intro hfr r1 s1 h1 fresh2 now2 r2 s2 h2
    cases hl : get_latest_job_for_document s document_id with
    | none =>
      have he : analyze_document_admission s document_id fresh_job_id now =
          some ({ job_id := fresh_job_id, scheduled := true, created := true },
            (save_job s document_id fresh_job_id StatusEnum.PENDING none now).1) := by
        simp [analyze_document_admission, hdoc, hl]
      rw [he] at h1
      simp only [Option.some.injEq, Prod.mk.injEq] at h1
      obtain ⟨hr1, hs1⟩ := h1
      subst hs1
      rw [admission_after_create s document_id fresh_job_id now hdoc hfr fresh2 now2] at h2
      simp only [Option.some.injEq, Prod.mk.injEq] at h2
      rw [← h2.1, ← hr1]
    | some j =>
      rw [hsome fresh_job_id now j hl] at h1
      by_cases ha : j.status = StatusEnum.PROCESSING ∨ j.status = StatusEnum.COMPLETED
          ∨ j.status = StatusEnum.PARTIAL
      · rw [if_pos ha] at h1
        simp only [Option.some.injEq, Prod.mk.injEq] at h1
        obtain ⟨hr1, hs1⟩ := h1
        subst hs1
        rw [hsome fresh2 now2 j hl, if_pos ha] at h2
        simp only [Option.some.injEq, Prod.mk.injEq] at h2
        rw [← h2.1, ← hr1]
      · by_cases hp : j.status = StatusEnum.PENDING
        · rw [if_neg ha, if_pos hp] at h1
          simp only [Option.some.injEq, Prod.mk.injEq] at h1
          obtain ⟨hr1, hs1⟩ := h1
          subst hs1
          rw [hsome fresh2 now2 j hl, if_neg ha, if_pos hp] at h2
          simp only [Option.some.injEq, Prod.mk.injEq] at h2
          rw [← h2.1, ← hr1]
        · rw [if_neg ha, if_neg hp] at h1
          simp only [Option.some.injEq, Prod.mk.injEq] at h1
          obtain ⟨hr1, hs1⟩ := h1
          subst hs1
          rw [admission_after_create s document_id fresh_job_id now hdoc hfr fresh2 now2] at h2
          simp only [Option.some.injEq, Prod.mk.injEq] at h2
          rw [← h2.1, ← hr1]

/-- Witness for C6: with one stored document and no jobs, admission
creates a fresh pending job and schedules orchestration. -/
theorem admission_decision_table_witness :
    analyze_document_admission ⟨["doc_1"], []⟩ "doc_1" "job_1" 5 =
      some ({ job_id := "job_1", scheduled := true, created := true },
        (save_job ⟨["doc_1"], []⟩ "doc_1" "job_1" StatusEnum.PENDING none 5).1) :=
  (admission_decision_table ⟨["doc_1"], []⟩ "doc_1" "job_1" 5 (by simp)).1 rfl

/-- The fan-out list of `DocumentAnalysisOrchestrator.analyze_document`
(app/services/orchestrator.py lines 88-93): the configured task set. -/
def orchestratorAgents : List String :=
  ["summarizer", "entity_extractor", "sentiment_analyzer", "keyword_extractor"]

/-- The `agents_status` map written when the orchestrator transitions the
job to `processing` (orchestrator.py lines 48-64). -/
def processingAgentsStatus : List (String × StatusEnum) :=
  [("summarizer", StatusEnum.PROCESSING), ("entity_extractor", StatusEnum.PROCESSING),
   ("sentiment_analyzer", StatusEnum.PROCESSING), ("keyword_extractor", StatusEnum.PROCESSING)]

/-- `result.get(k)` on an agent envelope. -/
def pyGet : PyVal → String → Option PyVal
  | .dict es, k => dlookup es k
  | _, _ => none

/-- `result.get(k, default)` on an agent envelope. -/
def pyGetD (v : PyVal) (k : String) (dflt : PyVal) : PyVal :=
  (pyGet v k).getD dflt

/-- `result.get("status") == "error"` (orchestrator.py line 165). -/
def isErrorStatus (result : PyVal) : Bool :=
  match pyGet result "status" with
  | some (.str s) => s == "error"
  | _ => false

/-- Embeds `DocumentAnalysisOrchestrator._run_agent` (orchestrator.py
lines 159-167) composed with the agent's Task Envelope `execute`: an
`error` envelope raises `RuntimeError(message)`, otherwise the `data`
payload (default `{}`) is returned. -/
def run_agent (ctx : AgentCtx) (ts : String) (b : ProcessBehavior) : Except String PyVal :=
  match execute ctx ts b with
  | .error e => .error (excMessage e)
  | .ok result =>
      if isErrorStatus result then
        .error (match pyGet result "message" with
          | some (.str m) => m
          | _ => "Agent returned error.")
      else .ok (pyGetD result "data" (.dict []))

/-- The mutable state shared by the orchestrator's `run_and_update_agent`
closures (orchestrator.py lines 59-66) together with the store. -/
structure OrchAcc where
  agents_status : List (String × StatusEnum)
  results_payload : List (String × PyVal)
  failed_agents : List (String × String)
  store : StorageState

/-- Embeds `run_and_update_agent` (orchestrator.py lines 68-85) for one
agent: record the terminal task status and result (or structured error),
then persist an incremental snapshot. -/
def run_and_update_agent (job_id : String) (ts : String) (timeout : Nat)
    (behaviors : String → ProcessBehavior) (acc : OrchAcc) (agent_name : String) : OrchAcc :=
  let acc1 := match run_agent ⟨agent_name, timeout⟩ ts (behaviors agent_name) with
    | .ok result =>
        { acc with
          agents_status := dinsert acc.agents_status agent_name StatusEnum.COMPLETED,
          results_payload := dinsert acc.results_payload agent_name result }
    | .error e =>
        { acc with
          agents_status := dinsert acc.agents_status agent_name StatusEnum.FAILED,
          failed_agents := dinsert acc.failed_agents agent_name e,
          results_payload := dinsert acc.results_payload agent_name
            (.dict [("error", .str e)]) }
  { acc1 with
    store := (update_job_status acc1.store job_id StatusEnum.PROCESSING
      (some acc1.agents_status) (some acc1.results_payload) none none none).1 }

/-- The values the orchestrator finalizes after the fan-in barrier. -/
structure OrchestratorOutcome where
  final_status : StatusEnum
  agents_status : List (String × StatusEnum)
  results_payload : List (String × PyVal)
  failed_agents : List (String × String)
  metadata : Metadata

/-- Embeds `DocumentAnalysisOrchestrator.analyze_document` (orchestrator.py
lines 40-157).  The agents' `process` behaviours are supplied by
`behaviors`; `ts`, `timeout` and `end_now` stand for the envelope
timestamp, the timeout setting and the finalization clock.  The
`asyncio.gather` fan-out is folded in launch order — one possible
completion order; the finalized maps are completion-order independent
because each task touches its own key. -/
def analyze_document_orchestrated (s : StorageState) (job_id : String)
    (timeout : Nat) (ts : String) (behaviors : String → ProcessBehavior)
    (end_now : Nat) : StorageState × OrchestratorOutcome :=
  let s1 := (update_job_status s job_id StatusEnum.PROCESSING
    (some processingAgentsStatus) none none none none).1
  let acc0 : OrchAcc := ⟨processingAgentsStatus, [], [], s1⟩
  let acc := orchestratorAgents.foldl (run_and_update_agent job_id ts timeout behaviors) acc0
  let failed_list := dkeys acc.failed_agents
  let warning := if failed_list.isEmpty then none else some "Some agents failed to complete"
  let metadata : Metadata :=
    { parallel_execution := true,
      agents_completed :=
        acc.agents_status.countP (fun kv => decide (kv.2 = StatusEnum.COMPLETED)),
      agents_failed :=
        acc.agents_status.countP (fun kv => decide (kv.2 = StatusEnum.FAILED)),
      warning := warning,
      failed_agents := failed_list }
  let final_status := determine_status acc.agents_status
  let s2 := (update_job_status acc.store job_id final_status (some acc.agents_status)
    (some acc.results_payload) (some end_now) (some acc.failed_agents) (some metadata)).1
  (s2, ⟨final_status, acc.agents_status, acc.results_payload, acc.failed_agents, metadata⟩)

/-- C7 (code bug): the configured task set has four tasks
(`orchestratorAgents`), but a job created through `save_job`'s default
starts with only three `task_status` keys; the orchestrator's first store
update then grows the key set to four, so the keys are not the configured
task set for the lifetime of the job. -/
theorem task_status_keys_mismatch :
    (∃ job1,
      get_job ((save_job ⟨["doc_1"], []⟩ "doc_1" "job_1" StatusEnum.PENDING none 0).1)
        "job_1" = some job1 ∧
      dkeys job1.agents_status = ["summarizer", "entity_extractor", "sentiment_analyzer"] ∧
      dkeys job1.agents_status ≠ orchestratorAgents) ∧
    (∃ job2,
      get_job ((update_job_status
          ((save_job ⟨["doc_1"], []⟩ "doc_1" "job_1" StatusEnum.PENDING none 0).1)
          "job_1" StatusEnum.PROCESSING (some processingAgentsStatus)
          none none none none).1) "job_1" = some job2 ∧
      dkeys job2.agents_status = orchestratorAgents) := by
  constructor
  · refine ⟨_, rfl, rfl, ?_⟩
    decide
  · exact ⟨_, rfl, rfl⟩

/-- Outcome of text extraction inside `run_analysis_task`: the extracted
text, or a raised exception with its message. -/
inductive ExtractionOutcome where
  | ok (text : String)
  | raises (msg : String)

/-- `not document_text or not document_text.strip()`
(app/services/background_tasks.py line 51). -/
def textBlank (t : String) : Bool := t.isEmpty || t.trim.isEmpty

/-- The `try` block of `run_analysis_task` once the document was found
(background_tasks.py lines 32-74): extract, check for blank text,
otherwise dispatch the orchestrator; a raised extraction error lands in
the `except` clause that fails the job under the `orchestrator` key. -/
def run_analysis_extracted (s : StorageState) (job_id : String)
    (extraction : ExtractionOutcome) (timeout : Nat) (ts : String)
    (behaviors : String → ProcessBehavior) (end_now : Nat) : StorageState × Bool :=
  match extraction with
  | .raises msg =>
      ((update_job_status s job_id StatusEnum.FAILED none none none
        (some [("orchestrator", msg)]) none).1, false)
  | .ok text =>
      if textBlank text then
        ((update_job_status s job_id StatusEnum.FAILED none none none
          (some [("orchestrator", "No text could be extracted from the uploaded file.")])
          none).1, false)
      else
        ((analyze_document_orchestrated s job_id timeout ts behaviors end_now).1, true)

/-- Embeds `BackgroundTaskService.run_analysis_task`
(background_tasks.py lines 20-74).  The extraction outcome is a parameter;
the Boolean reports whether the orchestrator was dispatched.  Temp-file
cleanup touches no job state and is omitted. -/
def run_analysis_task (s : StorageState) (job_id document_id : String)
    (extraction : ExtractionOutcome) (timeout : Nat) (ts : String)
    (behaviors : String → ProcessBehavior) (end_now : Nat) : StorageState × Bool :=
  if document_id ∈ s.documents then
    run_analysis_extracted s job_id extraction timeout ts behaviors end_now
  else
    ((update_job_status s job_id StatusEnum.FAILED none none none
      (some [("orchestrator", "Document not found.")]) none).1, false)

theorem applyJobUpdate_fail_only (job : JobStorage) (k m : String) :
    applyJobUpdate job StatusEnum.FAILED none none none (some [(k, m)]) none =
      { job with status := StatusEnum.FAILED,
                 error_messages := dupdate job.error_messages [(k, m)] } := rfl

theorem find?_map_update (q : String) (u : JobStorage → JobStorage)
    (hu : ∀ j, (u j).job_id = j.job_id) (l : List JobStorage) (job : JobStorage)
    (h : l.find? (fun j => j.job_id == q) = some job) :
    (l.map (fun j => if j.job_id == q then u j else j)).find? (fun j => j.job_id == q)
      = some (u job) := by
  induction l with
  | nil => simp at h
  | cons a rest ih =>
    by_cases hpa : (a.job_id == q) = true
    · rw [@List.find?_cons_of_pos _ (fun j => j.job_id == q) a rest hpa] at h
      injection h with h
      subst h
      have hpu : (((u a).job_id == q) = true) := by rw [hu a]; exact hpa
      simp only [List.map_cons, if_pos hpa]
      exact @List.find?_cons_of_pos _ (fun j => j.job_id == q) (u a) _ hpu
    · rw [@List.find?_cons_of_neg _ (fun j => j.job_id == q) a rest hpa] at h
      simp only [List.map_cons, if_neg hpa]
      rw [@List.find?_cons_of_neg _ (fun j => j.job_id == q) a _ hpa]
      exact ih h

theorem applyJobUpdate_job_id (job : JobStorage) (status : StatusEnum)
    (as : Option (List (String × StatusEnum))) (rs : Option (List (String × PyVal)))
    (et : Option Nat) (em : Option (List (String × String))) (md : Option Metadata) :
    (applyJobUpdate job status as rs et em md).job_id = job.job_id := by
  cases as <;> cases rs <;> cases et <;> cases em <;> cases md <;>
    simp only [applyJobUpdate] <;> split_ifs <;> rfl

/-- Updating a job that `get_job` finds yields the updated job under the
same id. -/
theorem get_job_update_job_status (s : StorageState) (job_id : String) (job : JobStorage)
    (hjob : get_job s job_id = some job) (status : StatusEnum)
    (as : Option (List (String × StatusEnum))) (rs : Option (List (String × PyVal)))
    (et : Option Nat) (em : Option (List (String × String))) (md : Option Metadata) :
    get_job ((update_job_status s job_id status as rs et em md).1) job_id =
      some (applyJobUpdate job status as rs et em md) := by
  unfold get_job at hjob
  have hmem : job ∈ s.jobs := List.mem_of_find?_eq_some hjob
  have hp : (job.job_id == job_id) = true := by
    have := List.find?_some hjob
    simpa using this
  have hany : s.jobs.any (fun j => j.job_id == job_id) = true :=
    List.any_eq_true.mpr ⟨job, hmem, hp⟩
  unfold update_job_status
  rw [if_pos hany]
  unfold get_job
  exact find?_map_update job_id
    (fun j => applyJobUpdate j status as rs et em md)
    (fun j => applyJobUpdate_job_id j status as rs et em md) s.jobs job hjob

/-- C8: when the job-level precondition fails before fan-out (missing
document, extraction failure, or blank text), the orchestrator is never
dispatched, no task status changes (tasks stay `pending`), the job status
is set directly to `failed`, and `error_messages` holds exactly one entry
under the reserved key `orchestrator`. -/
theorem run_analysis_task_precondition (s : StorageState) (job_id document_id : String)
    (extraction : ExtractionOutcome) (timeout : Nat) (ts : String)
    (behaviors : String → ProcessBehavior) (end_now : Nat) (job : JobStorage)
    (hjob : get_job s job_id = some job)
    (herr : job.error_messages = [])
    (hfail : document_id ∉ s.documents ∨ (∃ msg, extraction = .raises msg) ∨
      (∃ text, extraction = .ok text ∧ textBlank text = true)) :
    (run_analysis_task s job_id document_id extraction timeout ts behaviors end_now).2
      = false ∧
    ∃ msg job',
      get_job (run_analysis_task s job_id document_id extraction timeout ts
        behaviors end_now).1 job_id = some job' ∧
      job'.status = StatusEnum.FAILED ∧
      job'.agents_status = job.agents_status ∧
      job'.error_messages = [("orchestrator", msg)] := by
  have hupd : ∀ m : String,
      get_job ((update_job_status s job_id StatusEnum.FAILED none none none
        (some [("orchestrator", m)]) none).1) job_id =
      some { job with status := StatusEnum.FAILED,
                      error_messages := dupdate job.error_messages [("orchestrator", m)] } := by
    intro m
    rw [get_job_update_job_status s job_id job hjob StatusEnum.FAILED none none none
      (some [("orchestrator", m)]) none, applyJobUpdate_fail_only]
  rcases hfail with hdoc | ⟨msg, hext⟩ | ⟨text, hext, hblank⟩
  · unfold run_analysis_task
    rw [if_neg hdoc]
    refine ⟨rfl, "Document not found.", _, hupd _, rfl, rfl, ?_⟩
    simp [herr, dupdate, dinsert]
  · subst hext
    by_cases hdoc : document_id ∈ s.documents
    · unfold run_analysis_task
      rw [if_pos hdoc]
      refine ⟨rfl, msg, _, hupd _, rfl, rfl, ?_⟩
      simp [herr, dupdate, dinsert]
    · unfold run_analysis_task
      rw [if_neg hdoc]
      refine ⟨rfl, "Document not found.", _, hupd _, rfl, rfl, ?_⟩
      simp [herr, dupdate, dinsert]
  · subst hext
    by_cases hdoc : document_id ∈ s.documents
    · have hev : run_analysis_extracted s job_id (.ok text) timeout ts behaviors end_now =
          ((update_job_status s job_id StatusEnum.FAILED none none none
            (some [("orchestrator", "No text could be extracted from the uploaded file.")])
            none).1, false) := by
        simp [run_analysis_extracted, hblank]
      unfold run_analysis_task
      rw [if_pos hdoc, hev]
      refine ⟨rfl, "No text could be extracted from the uploaded file.", _, hupd _,
        rfl, rfl, ?_⟩
      simp [herr, dupdate, dinsert]
    · unfold run_analysis_task
      rw [if_neg hdoc]
      refine ⟨rfl, "Document not found.", _, hupd _, rfl, rfl, ?_⟩
      simp [herr, dupdate, dinsert]

/-- Witness for C8: a pending job whose document is missing from the store
is failed with a single `orchestrator` error entry, without dispatching
the orchestrator. -/
theorem run_analysis_task_precondition_witness :
    (run_analysis_task
      ⟨[], [⟨"job_1", "doc_1", StatusEnum.PENDING, defaultAgentsStatus, [], 0, none, [], none⟩]⟩
      "job_1" "doc_1" (.ok "hello") 30 "t" (fun _ => ProcessBehavior.timesOut) 9).2 = false ∧
    ∃ msg job',
      get_job (run_analysis_task
        ⟨[], [⟨"job_1", "doc_1", StatusEnum.PENDING, defaultAgentsStatus, [], 0, none, [], none⟩]⟩
        "job_1" "doc_1" (.ok "hello") 30 "t" (fun _ => ProcessBehavior.timesOut) 9).1
        "job_1" = some job' ∧
      job'.status = StatusEnum.FAILED ∧
      job'.agents_status = defaultAgentsStatus ∧
      job'.error_messages = [("orchestrator", msg)] :=
  run_analysis_task_precondition
    ⟨[], [⟨"job_1", "doc_1", StatusEnum.PENDING, defaultAgentsStatus, [], 0, none, [], none⟩]⟩
    "job_1" "doc_1" (.ok "hello") 30 "t" (fun _ => ProcessBehavior.timesOut) 9
    ⟨"job_1", "doc_1", StatusEnum.PENDING, defaultAgentsStatus, [], 0, none, [], none⟩
    rfl rfl (.inl (by simp))

/-- C9: when task outcomes are mixed (some succeed, some fail), the
finalized outcome has status `partial`, its failed-task list is exactly
the set of task names whose terminal status is `failed`, and the results
map holds an entry for every task — the success payload for succeeded
tasks and the structured `{"error": message}` object for failed ones. -/
theorem orchestrator_mixed_outcomes (s : StorageState) (job_id : String)
    (timeout : Nat) (ts : String) (behaviors : String → ProcessBehavior) (end_now : Nat)
    (hok : ∃ n ∈ orchestratorAgents, ∃ d,
      run_agent ⟨n, timeout⟩ ts (behaviors n) = .ok d)
    (herr : ∃ n ∈ orchestratorAgents, ∃ m,
      run_agent ⟨n, timeout⟩ ts (behaviors n) = .error m) :
    (analyze_document_orchestrated s job_id timeout ts behaviors end_now).2.final_status
      = StatusEnum.PARTIAL ∧
    dkeys (analyze_document_orchestrated s job_id timeout ts behaviors end_now).2.failed_agents
      = orchestratorAgents.filter (fun n => decide
          (dlookup (analyze_document_orchestrated s job_id timeout ts behaviors
            end_now).2.agents_status n = some StatusEnum.FAILED)) ∧
    (∀ n ∈ orchestratorAgents,
      (∀ d, run_agent ⟨n, timeout⟩ ts (behaviors n) = .ok d →
        dlookup (analyze_document_orchestrated s job_id timeout ts behaviors
          end_now).2.results_payload n = some d ∧
        dlookup (analyze_document_orchestrated s job_id timeout ts behaviors
          end_now).2.agents_status n = some StatusEnum.COMPLETED) ∧
      (∀ m, run_agent ⟨n, timeout⟩ ts (behaviors n) = .error m →
        dlookup (analyze_document_orchestrated s job_id timeout ts behaviors
          end_now).2.results_payload n = some (.dict [("error", .str m)]) ∧
        dlookup (analyze_document_orchestrated s job_id timeout ts behaviors
          end_now).2.agents_status n = some StatusEnum.FAILED)) := by
  cases h1 : run_agent ⟨"summarizer", timeout⟩ ts (behaviors "summarizer") <;>
  cases h2 : run_agent ⟨"entity_extractor", timeout⟩ ts (behaviors "entity_extractor") <;>
  cases h3 : run_agent ⟨"sentiment_analyzer", timeout⟩ ts (behaviors "sentiment_analyzer") <;>
  cases h4 : run_agent ⟨"keyword_extractor", timeout⟩ ts (behaviors "keyword_extractor") <;>
  first
  | (exfalso; revert hok; simp [orchestratorAgents, h1, h2, h3, h4]; done)
  | (exfalso; revert herr; simp [orchestratorAgents, h1, h2, h3, h4]; done)
  | (refine ⟨?_, ?_, ?_⟩ <;>
      simp [analyze_document_orchestrated, run_and_update_agent, orchestratorAgents,
        processingAgentsStatus, h1, h2, h3, h4, dinsert, dkeys, dlookup, dupdate,
        determine_status, List.countP_cons, List.countP_nil])

/-- Witness for C9: with one succeeding agent and three raising agents the
finalized status is `partial`. -/
theorem orchestrator_mixed_outcomes_witness :
    (analyze_document_orchestrated ⟨["doc_1"], []⟩ "job_1" 30 "t"
      (fun n => if n == "summarizer" then ProcessBehavior.returns (.dict [])
        else .raises "boom") 9).2.final_status = StatusEnum.PARTIAL :=
  (orchestrator_mixed_outcomes ⟨["doc_1"], []⟩ "job_1" 30 "t"
    (fun n => if n == "summarizer" then ProcessBehavior.returns (.dict [])
      else .raises "boom") 9
    ⟨"summarizer", by decide, .dict [], rfl⟩
    ⟨"entity_extractor", by decide, "boom", rfl⟩).1

end Summarizer
